import Mathlib

/-!
Verification development for the VetPro knowledge-enrichment pipeline.

Each definition below is a shallow embedding of a function of the
TypeScript source (scripts/enrich-guidelinerefs.ts, scripts/update-pubmed.ts,
scripts/merge-book-ddx.ts with the appended deep-literature-scan.ts,
scripts/rare-knowledge-rescue.ts, scripts/match-book-vetpro.ts,
scripts/deduplicate-diseases.ts, src/lib/ontology.ts and the appended
src/lib/pubmed.ts, and the ontology-sync script).  Conventions used
throughout:

* JavaScript strings are Lean `String`s; `toLowerCase` is mapped ASCII
  lowering (all inputs of interest are ASCII).
* JavaScript numbers that hold scores are modelled as exact rationals
  (`ℚ`); the source computes in IEEE doubles, whose rounding is not
  modelled, but every literal appearing in the claims (0.7, 0.8, 0.85,
  0.95) is exactly representable as written here.
* A JavaScript `Set` kept in insertion order is a `List` with
  membership-checked insertion, exactly as the code builds it.
* HTTP and the external PubMed/OLS endpoints are oracles: a run is a
  pure function of the response data the network would have produced.
-/

/-! ### Basic string machinery (character-level models of the JS string ops) -/

/-- ASCII lowering, the model of `String.prototype.toLowerCase` on the
ASCII strings this pipeline handles. -/
def jsLower (s : String) : String := ⟨s.data.map Char.toLower⟩

/-- Boolean test that `pat` is an initial segment of `l` (the comparison a
JS regex/`startsWith` performs position by position). -/
def leadsWith : List Char → List Char → Bool
  | [], _ => true
  | _ :: _, [] => false
  | a :: as, b :: bs => a == b && leadsWith as bs

/-- Occurrence test of `pat` anywhere inside a character list, the model of
`String.prototype.includes`. -/
def hasSub (pat : List Char) : List Char → Bool
  | [] => leadsWith pat []
  | a :: t => leadsWith pat (a :: t) || hasSub pat t

/-- String-level `includes`. -/
def strHas (s pat : String) : Bool := hasSub pat.data s.data

/-- First occurrence search: the suffix that follows the first occurrence of
`pat`, the model of matching the regex `pat(\d+)` and keeping what follows
`pat`.  `none` when `pat` does not occur. -/
def findAfterPat (pat : List Char) : List Char → Option (List Char)
  | [] => if leadsWith pat [] then some (([] : List Char).drop pat.length) else none
  | a :: t =>
    if leadsWith pat (a :: t) then some ((a :: t).drop pat.length)
    else findAfterPat pat t

/-- Character class `[a-z0-9]` used by the bigram normalizers after
lowering. -/
def isLowerAlnum (c : Char) : Bool :=
  (('a' ≤ c && c ≤ 'z') || ('0' ≤ c && c ≤ '9'))

/-! ### Rate-limited fetch client (`fetchWithRetry`, identical copies in
src/lib/ontology.ts (pubmed lib) lines 262-301, enrich-guidelinerefs.ts
lines 472-496, deep-literature-scan and rare-knowledge-rescue).

The network is an oracle `resp : ℕ → FetchResp` giving the outcome of the
request made on each attempt number.  The embedding returns the terminal
outcome together with the list of backoff waits (in ms) the loop performed,
in order. -/

/-- Outcome of one HTTP attempt: a status code, or a thrown network error. -/
inductive FetchResp where
  | status (code : ℕ)
  | netErr
deriving DecidableEq

/-- Terminal outcome of the retry loop.  `success a` is a 2xx body obtained
on attempt `a`; `failure c` is the `HTTP c` error thrown on the last
attempt; `netFailure` is a rethrown network error; `exhausted` is the
final `Max retries exceeded` throw after a 429/5xx on the last attempt. -/
inductive FetchOutcome where
  | success (attempt : ℕ)
  | failure (code : ℕ)
  | netFailure
  | exhausted
deriving DecidableEq

/-- Response.ok of the fetch API: status in [200, 300). -/
def resOk (c : ℕ) : Bool := 200 ≤ c && c < 300

/-- Body of `fetchWithRetry`, one constructor step per loop iteration.
`fuel` counts the loop iterations still allowed (`retries - attempt + 1`
at entry); `attempt` is the 1-based attempt counter of the source.  A 429
or 5xx waits `2000 * attempt` and continues; any other non-ok status is
thrown, lands in the generic catch, and is retried with the same wait
unless this was the final attempt; so is a network error. -/
def fetchAux (resp : ℕ → FetchResp) (retries : ℕ) :
    ℕ → ℕ → List ℕ → FetchOutcome × List ℕ
  | _, 0, waits => (.exhausted, waits)
  | attempt, fuel + 1, waits =>
    match resp attempt with
    | .status c =>
      if c = 429 then
        fetchAux resp retries (attempt + 1) fuel (waits ++ [2000 * attempt])
      else if 500 ≤ c then
        fetchAux resp retries (attempt + 1) fuel (waits ++ [2000 * attempt])
      else if !resOk c then
        if attempt = retries then (.failure c, waits)
        else fetchAux resp retries (attempt + 1) fuel (waits ++ [2000 * attempt])
      else (.success attempt, waits)
    | .netErr =>
      if attempt = retries then (.netFailure, waits)
      else fetchAux resp retries (attempt + 1) fuel (waits ++ [2000 * attempt])

/-- The retry loop `for (let attempt = 1; attempt <= retries; attempt++)`. -/
def fetchWithRetry (resp : ℕ → FetchResp) (retries : ℕ) : FetchOutcome × List ℕ :=
  fetchAux resp retries 1 retries []

/-! ### Record normalizer: article-type derivation
(deep-literature-scan `fetchArticleDetails`, merge-book-ddx.ts appended file
lines 638-647; enrich-guidelinerefs.ts lines 364-377 is the same code
without the case-report tag branch). -/

/-- Article types the classifiers can produce.  The source stores them as
the strings `consensus`, `guideline`, `review`, `case-report`, `research`;
these five values are the only ones either classifier assigns, so the
enumeration is the reachable value set. -/
inductive ArticleType where
  | consensus
  | guideline
  | review
  | caseReport
  | research
deriving DecidableEq

/-- Tag scan `pubTypes.some(t => t.includes(pat))`; `pubTypes` is the list
of `PublicationType` values already lowercased by the parser. -/
def hasTag (pubTypes : List String) (pat : String) : Bool :=
  pubTypes.any (fun t => strHas t pat)

/-- Tag-based classification, lines 638-642 of the deep-literature-scan
copy: guideline is tested first, then consensus, review, case reports,
defaulting to research. -/
def classifyTags (pubTypes : List String) : ArticleType :=
  if hasTag pubTypes "practice guideline" || hasTag pubTypes "guideline" then .guideline
  else if hasTag pubTypes "consensus" then .consensus
  else if hasTag pubTypes "review" || hasTag pubTypes "systematic review" then .review
  else if hasTag pubTypes "case reports" then .caseReport
  else .research

/-- Full classification including the three sequential title checks, each
guarded by `articleType === "research"` at the time it runs. -/
def classifyArticle (pubTypes : List String) (title : String) : ArticleType :=
  let t0 := classifyTags pubTypes
  let tl := jsLower title
  let t1 := if strHas tl "consensus" && t0 == .research then .consensus else t0
  let t2 := if strHas tl "guideline" && t1 == .research then .guideline else t1
  if strHas tl "review" && t2 == .research then .review else t2

/-- Modelled from the amended claim wording, for comparison with
`classifyArticle`: tag precedence guideline, consensus, review,
case-report with default research, and a title-word override in the order
consensus, guideline, review that fires only when no tag matched. -/
def classifySpecAmended (pubTypes : List String) (title : String) : ArticleType :=
  let tl := jsLower title
  if hasTag pubTypes "practice guideline" || hasTag pubTypes "guideline" then .guideline
  else if hasTag pubTypes "consensus" then .consensus
  else if hasTag pubTypes "review" || hasTag pubTypes "systematic review" then .review
  else if hasTag pubTypes "case reports" then .caseReport
  else if strHas tl "consensus" then .consensus
  else if strHas tl "guideline" then .guideline
  else if strHas tl "review" then .review
  else .research

/-! ### Per-entity admission caps.

`enrichMaxToAdd` is enrich-guidelinerefs.ts line 194
(`currentCount < 2 ? 3 : (currentCount < 3 ? 2 : 1)`); its skip branch at
line 196 tests `maxToAdd <= 0 && currentCount >= 4`.
`deepScanCap` is deep-literature-scan line 534-535
(`Math.max(1, MAX_REFS_PER_DISEASE - refCount)` with the constant 5);
`rareRescueCap` is rare-knowledge-rescue (`Math.max(1, 3 - refCount)`).
Truncated ℕ subtraction agrees with `Math.max(1, 5 - n)` over integers. -/

def enrichMaxToAdd (currentCount : ℕ) : ℕ :=
  if currentCount < 2 then 3 else if currentCount < 3 then 2 else 1

/-- Guard of the `Already has N refs, skipping search` branch. -/
def enrichSkip (currentCount : ℕ) : Bool :=
  enrichMaxToAdd currentCount ≤ 0 && 4 ≤ currentCount

def deepScanCap (refCount : ℕ) : ℕ := max 1 (5 - refCount)

def rareRescueCap (refCount : ℕ) : ℕ := max 1 (3 - refCount)

/-! ### Normalized records (`ArticleInfo` of the enrichment scripts). -/

/-- String names the source stores for each `ArticleType` value. -/
def typeName : ArticleType → String
  | .consensus => "consensus"
  | .guideline => "guideline"
  | .review => "review"
  | .caseReport => "case-report"
  | .research => "research"

/-- Normalized bibliographic record produced by `fetchArticleDetails`. -/
structure ArticleInfo where
  pmid : String
  title : String
  journal : String
  year : Int
  doi : Option String
  isPmc : Bool
  pmcId : Option String
  articleType : ArticleType
deriving DecidableEq

/-! ### Ranker and selector (deep-literature-scan `processDisease`,
merge-book-ddx.ts appended file lines 525-535; rare-knowledge-rescue uses
the identical comparator; enrich-guidelinerefs.ts lines 242-253 uses the
same comparator except that its `order` map has no `case-report` entry,
so that type falls to the `?? 9` default). -/

/-- Order map of the deep-scan comparator:
`{ consensus: 0, guideline: 1, review: 2, "case-report": 3, research: 4 }`.
Every reachable `articleType` is a key, so the `?? 9` default is dead. -/
def typeRank : ArticleType → Int
  | .consensus => 0
  | .guideline => 1
  | .review => 2
  | .caseReport => 3
  | .research => 4

/-- Order map of the enrich-guidelinerefs comparator:
`{ consensus: 0, guideline: 1, review: 2, research: 3 }`; `case-report`
is not a key and gets the `?? 9` default (that classifier never produces
it). -/
def enrichTypeRank : ArticleType → Int
  | .consensus => 0
  | .guideline => 1
  | .review => 2
  | .research => 3
  | .caseReport => 9

/-- The three-way comparator passed to `articles.sort` by the deep scan:
open-access flag first (PMC articles sort before non-PMC), then the order
map ascending, then publication year descending. -/
def jsCmpDeep (a b : ArticleInfo) : Int :=
  if a.isPmc != b.isPmc then (if a.isPmc then -1 else 1)
  else if a.articleType != b.articleType then
    typeRank a.articleType - typeRank b.articleType
  else b.year - a.year

/-- The enrich-guidelinerefs comparator (same shape, its own order map). -/
def jsCmpEnrich (a b : ArticleInfo) : Int :=
  if a.isPmc != b.isPmc then (if a.isPmc then -1 else 1)
  else if a.articleType != b.articleType then
    enrichTypeRank a.articleType - enrichTypeRank b.articleType
  else b.year - a.year

/-- Non-strict order induced by the deep-scan comparator; a stable sort by
`jsCmpDeep` is a stable sort by this relation. -/
def deepLe (a b : ArticleInfo) : Prop := jsCmpDeep a b ≤ 0

/-- Non-strict order induced by the enrich comparator. -/
def enrichLe (a b : ArticleInfo) : Prop := jsCmpEnrich a b ≤ 0

instance : DecidableRel deepLe := fun a b => by unfold deepLe; infer_instance

instance : DecidableRel enrichLe := fun a b => by unfold enrichLe; infer_instance

/-- deep-scan `articles.sort(cmp)`: JS sort is stable, modelled by a stable
insertion sort under the comparator's non-strict order. -/
def sortArticles (l : List ArticleInfo) : List ArticleInfo :=
  List.insertionSort deepLe l

/-- deep-scan and rare-rescue `articles.slice(0, Math.max(1, maxToAdd))`
after sorting; `maxToAdd` is an integer (`5 - refCount`, resp.
`3 - refCount`) that may be non-positive. -/
def selectTop (articles : List ArticleInfo) (maxToAdd : Int) : List ArticleInfo :=
  (sortArticles articles).take (max 1 maxToAdd).toNat

/-! ### Candidate collection (deep-literature-scan `processDisease`,
query loop with the `candidatePmids.length >= MAX_REFS_PER_DISEASE * 3`
break and the `!existingPmids.has(pmid) && !candidatePmids.includes(pmid)`
filter). -/

/-- Inner loop over one query's result ids. -/
def addCandidates (existing acc q : List String) : List String :=
  q.foldl (fun acc p =>
    if existing.contains p || acc.contains p then acc else acc ++ [p]) acc

/-- Outer loop over the search queries with the early break at 15. -/
def collectLoop (existing : List String) : List (List String) → List String → List String
  | [], acc => acc
  | q :: rest, acc =>
    if 15 ≤ acc.length then acc
    else collectLoop existing rest (addCandidates existing acc q)

/-- All candidate pmids gathered for one disease. -/
def deepCollect (queries : List (List String)) (existing : List String) : List String :=
  collectLoop existing queries []

/-- Articles obtained for `candidatePmids.slice(0, 15)`; the efetch round
trip is the oracle `details`, one normalized record per requested id that
the payload contains. -/
def deepArticles (queries : List (List String)) (existing : List String)
    (details : String → Option ArticleInfo) : List ArticleInfo :=
  ((deepCollect queries existing).take 15).filterMap details

/-- Records admitted for one disease by the deep scan. -/
def deepSelect (queries : List (List String)) (existing : List String)
    (details : String → Option ArticleInfo) (maxToAdd : Int) : List ArticleInfo :=
  selectTop (deepArticles queries existing details) maxToAdd

/-! ### LinkRecords (`GuidelineRef`) and the per-entity identifier set. -/

/-- JS truthiness of an optional string field (`undefined` and `""` are
falsy). -/
def jsTruthyS : Option String → Bool
  | some s => !s.isEmpty
  | none => false

/-- One `guidelineRefs` entry of a disease YAML. -/
structure GuidelineRef where
  sourceOrg : String
  title : String
  url : String
  type : String
  pmid : Option String
deriving DecidableEq

/-- Pattern of the pmid-extraction regex
`/pubmed\.ncbi\.nlm\.nih\.gov\/(\d+)/`. -/
def pubmedPat : List Char := "pubmed.ncbi.nlm.nih.gov/".data

/-- Model of `url.match(/pubmed\.ncbi\.nlm\.nih\.gov\/(\d+)/)?.[1]`: the
maximal digit run right after the first occurrence of the host pattern,
requiring at least one digit. -/
def urlPmid (url : String) : Option String :=
  match findAfterPat pubmedPat url.data with
  | none => none
  | some rest =>
    let ds := rest.takeWhile Char.isDigit
    if ds.isEmpty then none else some ⟨ds⟩

/-- URL written for a non-open-access admitted record. -/
def pubmedUrl (pmid : String) : String :=
  "https://pubmed.ncbi.nlm.nih.gov/" ++ pmid ++ "/"

/-- URL written for an open-access admitted record. -/
def pmcUrl (pmcId : String) : String :=
  "https://www.ncbi.nlm.nih.gov/pmc/articles/" ++ pmcId ++ "/"

/-- The new `GuidelineRef` pushed for an admitted article. -/
def mkRef (a : ArticleInfo) : GuidelineRef :=
  { sourceOrg := a.journal
    title := a.title
    url := if a.isPmc && jsTruthyS a.pmcId then pmcUrl (a.pmcId.getD "")
           else pubmedUrl a.pmid
    type := typeName a.articleType
    pmid := some a.pmid }

/-- External identifiers one ref carries, exactly as the Step-2 loop reads
them: the `pmid` field when truthy, plus a pmid embedded in the `url`. -/
def refIds (r : GuidelineRef) : List String :=
  (if jsTruthyS r.pmid then [r.pmid.getD ""] else []) ++
    (match urlPmid r.url with | some p => [p] | none => [])

/-- The `existingPmids` set collected over all refs of a disease. -/
def existingPmidsOf (refs : List GuidelineRef) : List String :=
  refs.foldl (fun acc r => acc ++ refIds r) []

/-- Invariant of claim C7: no two LinkRecords under one entity share an
external identifier. -/
def NoDupIds (refs : List GuidelineRef) : Prop :=
  refs.Pairwise (fun r s => ∀ x ∈ refIds r, x ∉ refIds s)

/-- One deep-scan `processDisease` pass over a disease file, at the level
of its `guidelineRefs` list: collect candidates not already present, fetch
details, sort, slice, append the new refs. -/
def deepProcess (refs : List GuidelineRef) (queries : List (List String))
    (details : String → Option ArticleInfo) : List GuidelineRef :=
  refs ++
    (deepSelect queries (existingPmidsOf refs) details (5 - (refs.length : Int))).map mkRef

/-! ### Idempotent merge engine.

`runQuery` is scripts/update-pubmed.ts lines 155-216: search ids come from
the oracle as `idlist`, ids already present in the `references` table
(modelled by the list of stored pmids) are filtered out, details are
fetched for the rest, and each fetched article is inserted.  `added` is
the number of articles inserted.

`syncXrefs` is the cross-reference insert loop of the ontology-sync script
(lines 104-132): for each cross-reference of the term, insert a mapping
keyed by (source, code) unless one already exists. -/

/-- Normalized record of src/lib/pubmed.ts `parseArticle`. -/
structure PubMedArticle where
  pmid : String
  title : String
  authors : List String
  journal : String
  year : Int
  doi : Option String
  isOpenAccess : Bool

/-- One `runQuery` call; the state is the list of pmids present in the
`references` table, returned updated together with `added`. -/
def runQuery (db : List String) (idlist : List String)
    (details : String → Option PubMedArticle) : ℕ × List String :=
  if idlist.isEmpty then (0, db)
  else
    let newPmids := idlist.filter (fun p => !db.contains p)
    if newPmids.isEmpty then (0, db)
    else
      let articles := newPmids.filterMap details
      (articles.length, db ++ articles.map (·.pmid))

/-- Confidence tier of an ontology cross-reference. -/
inductive XrefConfidence where
  | exact
  | broad
  | narrow
deriving DecidableEq

/-- Cross-reference of src/lib/ontology.ts. -/
structure CrossReference where
  source : String
  code : String
  label : Option String
  confidence : XrefConfidence

/-- The xref insert loop: state is the list of (source, code) keys already
mapped for the disease; returns `added` and the updated state. -/
def syncXrefs (mappings : List (String × String)) :
    List CrossReference → ℕ × List (String × String)
  | [] => (0, mappings)
  | x :: rest =>
    if mappings.contains (x.source, x.code) then syncXrefs mappings rest
    else
      let r := syncXrefs (mappings ++ [(x.source, x.code)]) rest
      (r.1 + 1, r.2)

/-! ### Pipeline orchestrators (claim C8).

`scanBatch` is the deep-literature-scan main loop (and the identical loops
of enrich-guidelinerefs and rare-knowledge-rescue): each entity is
processed inside its own try/catch, an error is logged and the loop
continues.  `updatePubmedRun` is scripts/update-pubmed.ts `main`: the
per-disease query loop has no per-entity catch, so the first error
reaches the top-level catch, which finalizes the run log with status
`failed`; on loop completion the log is finalized with status `success`.
Per-entity work is the oracle `proc`/`runQ` (ok with an added-count, or a
thrown error). -/

/-- Whether a per-entity outcome is a success. -/
def isOkE (x : Except String ℕ) : Bool :=
  match x with
  | .ok _ => true
  | .error _ => false

/-- Result of a deep-scan batch. -/
structure ScanRes where
  totalAdded : ℕ
  merged : List String
  errors : List String
deriving DecidableEq

/-- The deep-scan batch loop with per-entity try/catch. -/
def scanBatch (entities : List String) (proc : String → Except String ℕ) : ScanRes :=
  entities.foldl
    (fun acc e =>
      match proc e with
      | .ok n => { acc with totalAdded := acc.totalAdded + n, merged := acc.merged ++ [e] }
      | .error _ => { acc with errors := acc.errors ++ [e] })
    ⟨0, [], []⟩

/-- Finalized run log of update-pubmed. -/
structure RunLog where
  recordsAdded : ℕ
  status : String
deriving DecidableEq

/-- The update-pubmed per-disease query loop: aborts at the first error
(top-level catch), finalizing with status `failed` and the counts so far;
otherwise finalizes with status `success`.  Also returns the queries whose
results were merged before the run ended. -/
def updatePubmedRun (queries : List String) (runQ : String → Except String ℕ) :
    RunLog × List String :=
  go queries 0 []
where
  go : List String → ℕ → List String → RunLog × List String
    | [], acc, merged => (⟨acc, "success"⟩, merged)
    | q :: rest, acc, merged =>
      match runQ q with
      | .ok n => go rest (acc + n) (merged ++ [q])
      | .error _ => (⟨acc, "failed"⟩, merged)

/-! ### Entity resolver: bigrams and Dice scores.

`getBigrams`/`diceCoefficient` are scripts/match-book-vetpro.ts lines
289-306 (unnamed part_010).  `bigramsSpaced`/`similarity` are the
deduplicate-diseases.ts variants (these keep a space where a
non-alphanumeric stood, and return 0 when either set is empty).  A JS
`Set` is a list in insertion order without duplicates. -/

/-- All consecutive character pairs of a character list, in order. -/
def bigramSeq : List Char → List String
  | a :: b :: rest => (⟨[a, b]⟩ : String) :: bigramSeq (b :: rest)
  | _ => []

/-- Set-insertion in order: `Set.prototype.add`. -/
def addUnique (acc : List String) (x : String) : List String :=
  if acc.contains x then acc else acc ++ [x]

/-- Deduplicate keeping first occurrences (building a JS `Set`). -/
def dedupKeep (l : List String) : List String := l.foldl addUnique []

/-- match-book-vetpro `getBigrams`: lowercase, strip everything outside
`[a-z0-9]`, then the set of character bigrams. -/
def getBigrams (s : String) : List String :=
  dedupKeep (bigramSeq ((jsLower s).data.filter isLowerAlnum))

/-- match-book-vetpro `diceCoefficient` over two bigram sets. -/
def diceCoefficient (a b : List String) : ℚ :=
  if a.isEmpty && b.isEmpty then 1
  else if a.isEmpty || b.isEmpty then 0
  else (2 * (a.countP (fun g => b.contains g)) : ℚ) / ((a.length : ℚ) + (b.length : ℚ))

/-- Drop leading and trailing spaces (`String.prototype.trim`; only plain
spaces can remain after the replacements that precede it here). -/
def jsTrim (l : List Char) : List Char :=
  ((l.dropWhile (· == ' ')).reverse.dropWhile (· == ' ')).reverse

/-- deduplicate-diseases `bigrams`: lowercase, replace each character
outside `[a-z0-9]` by a space, trim, then the set of bigrams (bigrams may
contain spaces here). -/
def bigramsSpaced (s : String) : List String :=
  dedupKeep (bigramSeq (jsTrim ((jsLower s).data.map
    (fun c => if isLowerAlnum c then c else ' '))))

/-- deduplicate-diseases `similarity`: Dice over the spaced bigram sets,
0 whenever either set is empty (no both-empty special case here). -/
def similarity (a b : String) : ℚ :=
  let ag := bigramsSpaced a
  let bg := bigramsSpaced b
  if ag.isEmpty || bg.isEmpty then 0
  else (2 * (ag.countP (fun g => bg.contains g)) : ℚ) / ((ag.length : ℚ) + (bg.length : ℚ))

/-- Quote characters removed by the name normalizers (the source regex
classes hold the two typographic single quotes; the straight quote is
included for the ASCII fallback). -/
def isQuoteChar (c : Char) : Bool :=
  c == '\'' || c == '’' || c == '‘'

/-- Collapse runs of `ch` to a single `ch`. -/
def collapseRuns (ch : Char) : List Char → List Char
  | [] => []
  | [c] => [c]
  | a :: b :: rest =>
    if a == ch && b == ch then collapseRuns ch (b :: rest)
    else a :: collapseRuns ch (b :: rest)

/-- Drop leading and trailing occurrences of `ch`. -/
def trimEnds (ch : Char) (l : List Char) : List Char :=
  ((l.dropWhile (· == ch)).reverse.dropWhile (· == ch)).reverse

/-- deduplicate-diseases `normalize`: lowercase, drop quotes, dashes and
underscores become spaces, collapse whitespace runs, trim. -/
def normalizeName (s : String) : String :=
  ⟨jsTrim (collapseRuns ' '
    (((jsLower s).data.filter (fun c => !isQuoteChar c)).map
      (fun c => if c == '-' || c == '_' then ' ' else c)))⟩

/-- deduplicate-diseases `nameToSlug`: lowercase, drop quotes, runs of
non-alphanumerics become a single dash, trim dashes.  (The source maps the
runs with `/[^a-z0-9]+/g`, strips one dash at each end, then collapses
dash runs; collapsing before trimming yields the same string.) -/
def nameToSlug (s : String) : String :=
  ⟨trimEnds '-' (collapseRuns '-'
    (((jsLower s).data.filter (fun c => !isQuoteChar c)).map
      (fun c => if isLowerAlnum c then c else '-')))⟩

/-- match-book-vetpro `slugify`: as `nameToSlug` but parentheses are also
removed before the dash replacement. -/
def slugify (s : String) : String :=
  ⟨trimEnds '-' (collapseRuns '-'
    (((jsLower s).data.filter (fun c => !(isQuoteChar c || c == '(' || c == ')'))).map
      (fun c => if isLowerAlnum c then c else '-')))⟩

/-! ### Cross-catalog resolver (match-book-vetpro.ts, unnamed part_010). -/

/-- One catalog entity as the matcher loads it from YAML. -/
structure VetProDisease where
  slug : String
  nameEn : String
  nameZh : String
  aliases : List String
deriving DecidableEq

/-- JS `Map` lookup over an insertion-ordered association list: the last
`set` for a key wins. -/
def mlook (m : List (String × VetProDisease)) (k : String) : Option VetProDisease :=
  m.foldl (fun acc p => if p.1 == k then some p.2 else acc) none

/-- `new Map(vetproDiseases.map(d => [d.slug, d]))`. -/
def buildSlugMap (ds : List VetProDisease) : List (String × VetProDisease) :=
  ds.map (fun d => (d.slug, d))

/-- `vetproByEnLower`: primary English name (when truthy) and every alias,
all lowercased, inserted per disease in catalog order. -/
def buildEnMap (ds : List VetProDisease) : List (String × VetProDisease) :=
  ds.foldl
    (fun m d =>
      (if !d.nameEn.isEmpty then m ++ [(jsLower d.nameEn, d)] else m) ++
        d.aliases.map (fun a => (jsLower a, d)))
    []

/-- `vetproByZh`: localized name map (truthy names only). -/
def buildZhMap (ds : List VetProDisease) : List (String × VetProDisease) :=
  ds.foldl (fun m d => if !d.nameZh.isEmpty then m ++ [(d.nameZh, d)] else m) []

/-- External (BOOK) record offered for resolution. -/
structure BookInfo where
  zh : String
  en : String
  synonyms : List String

/-- Resolution outcome: chosen entity, method tag, score. -/
structure MatchRes where
  vetproSlug : Option String
  method : String
  diceScore : ℚ
deriving DecidableEq

/-- Model of `parseFloat(score.toFixed(3))`: round to 3 decimal places
(half away from zero does not differ from half up on the non-negative
scores that occur; double rounding of the underlying IEEE value is not
modelled). -/
def round3 (q : ℚ) : ℚ := ((⌊q * 1000 + 1/2⌋ : ℤ) : ℚ) / 1000

/-- Layer-3 loop: best Dice score over unmatched catalog entries,
comparing the book slug against each slug and the lowercased English
names; a strictly greater score replaces the best. -/
def layer3 (ds : List VetProDisease) (matched : List String)
    (bookSlug : String) (en : String) : ℚ × Option VetProDisease :=
  let bookBigrams := getBigrams bookSlug
  ds.foldl
    (fun best vp =>
      if matched.contains vp.slug then best
      else
        let score := diceCoefficient bookBigrams (getBigrams vp.slug)
        let best1 := if score > best.1 then (score, some vp) else best
        let nameScore := diceCoefficient (getBigrams (jsLower en)) (getBigrams (jsLower vp.nameEn))
        if nameScore > best1.1 then (nameScore, some vp) else best1)
    ((0 : ℚ), none)

/-- Layer-2c loop over the external record's synonyms: lowercased synonym
against the name map, then its slugified form against the slug map. -/
def synLoop (enMap slugMap : List (String × VetProDisease)) :
    List String → Option VetProDisease
  | [] => none
  | syn :: rest =>
    match mlook enMap (jsLower syn) with
    | some vp => some vp
    | none =>
      match mlook slugMap (slugify syn) with
      | some vp => some vp
      | none => synLoop enMap slugMap rest

/-- The full tiered resolution of one BOOK record (match-book-vetpro main
loop body).  The `matched` set only masks layer-3 candidates; its updates
affect later book entries and are not part of this record's outcome. -/
def matchBook (ds : List VetProDisease) (matched : List String)
    (bookSlug : String) (info : BookInfo) : MatchRes :=
  let slugMap := buildSlugMap ds
  let enMap := buildEnMap ds
  let zhMap := buildZhMap ds
  match mlook slugMap bookSlug with
  | some vp => ⟨some vp.slug, "slug", 1⟩
  | none =>
    match mlook enMap (jsLower info.en) with
    | some vp => ⟨some vp.slug, "name-exact", 1⟩
    | none =>
      match (if !info.zh.isEmpty then mlook zhMap info.zh else none) with
      | some vp => ⟨some vp.slug, "name-zh", 1⟩
      | none =>
        match synLoop enMap slugMap info.synonyms with
        | some vp => ⟨some vp.slug, "synonym", 0.95⟩
        | none =>
          let best := layer3 ds matched bookSlug info.en
          match best.2 with
          | some vp =>
            if best.1 ≥ 0.7 then ⟨some vp.slug, "dice", round3 best.1⟩
            else ⟨none, "none", 0⟩
          | none => ⟨none, "none", 0⟩

/-! ### Duplicate-detection resolver (deduplicate-diseases.ts `isDuplicate`). -/

/-- One existing catalog entry as the dedupe script loads it. -/
structure ExistingDisease where
  slug : String
  nameEn : String
  nameEnNorm : String
  aliases : List String
deriving DecidableEq

/-- Outcome of `isDuplicate`. -/
structure DupRes where
  isDup : Bool
  matchedSlug : Option String
  matchScore : Option ℚ
deriving DecidableEq

/-- Loop body of `isDuplicate` over the existing entries: exact normalized
name, alias list, fuzzy `similarity > 0.85`, then the substring-containment
check guarded by both lengths exceeding 5 and a shorter/longer length
quotient above 0.7. -/
def dupLoop (norm : String) : List ExistingDisease → DupRes
  | [] => ⟨false, none, none⟩
  | e :: rest =>
    if norm == e.nameEnNorm then ⟨true, some e.slug, some 1⟩
    else if e.aliases.contains norm then ⟨true, some e.slug, some 1⟩
    else if similarity norm e.nameEnNorm > 0.85 then
      ⟨true, some e.slug, some (similarity norm e.nameEnNorm)⟩
    else if 5 < norm.length && 5 < e.nameEnNorm.length
        && (norm == e.nameEnNorm || strHas e.nameEnNorm norm || strHas norm e.nameEnNorm)
        && ((min norm.length e.nameEnNorm.length : ℚ) / (max norm.length e.nameEnNorm.length : ℚ) > 0.7) then
      ⟨true, some e.slug,
        some ((min norm.length e.nameEnNorm.length : ℚ) / (max norm.length e.nameEnNorm.length : ℚ))⟩
    else dupLoop norm rest

/-- deduplicate-diseases `isDuplicate`: slug-set hit first, then the loop. -/
def isDuplicate (candidateName : String) (existing : List ExistingDisease)
    (slugSet : List String) : DupRes :=
  let norm := normalizeName candidateName
  let slug := nameToSlug candidateName
  if slugSet.contains slug then ⟨true, some slug, some 1⟩
  else dupLoop norm existing

/-! ### Title extraction from parsed XML mixed content
(src/lib/ontology.ts appended pubmed lib, `extractText` lines 362-379;
`parseArticle` feeds it the parsed `ArticleTitle` node).  The parsed value
is modelled structurally: a parser facing mixed text/tag content yields an
object holding the concatenated top-level text under the `#text` key and
each inline tag's content under the tag's name. -/

mutual

/-- A parsed XML/JSON value as fast-xml-parser hands it over. -/
inductive JsonVal where
  | jstr (s : String)
  | jnum (n : Int)
  | jnull
  | jobj (fields : JsonFields)

/-- Ordered fields of a parsed object. -/
inductive JsonFields where
  | fnil
  | fcons (key : String) (v : JsonVal) (rest : JsonFields)

end

/-- JS `String(x)` on the values that can appear here. -/
def jsToStringVal : JsonVal → String
  | .jstr s => s
  | .jnum n => toString n
  | .jnull => "null"
  | .jobj _ => "[object Object]"

/-- Field lookup (`"#text" in obj` / `obj["#text"]`). -/
def lookupField : JsonFields → String → Option JsonVal
  | .fnil, _ => none
  | .fcons key v rest, k => if key == k then some v else lookupField rest k

mutual

/-- The source `extractText`: empty for null/undefined, the value itself
for strings and numbers; for an object, the `#text` entry alone when one
exists, otherwise the concatenation over all field values. -/
def extractText : JsonVal → String
  | .jstr s => s
  | .jnum n => toString n
  | .jnull => ""
  | .jobj fields =>
    match lookupField fields "#text" with
    | some v => jsToStringVal v
    | none => extractTextAll fields

/-- Concatenation branch `Object.values(obj).map(extractText).join("")`. -/
def extractTextAll : JsonFields → String
  | .fnil => ""
  | .fcons _ v rest => extractText v ++ extractTextAll rest

end

/-! ## Theorems -/

/-! ### Shared helper lemmas for the retry loop -/

/-- On a constant non-ok, non-429, non-5xx status the loop retries with a
backoff wait after every attempt except the last, then throws the HTTP
error.  Stated over the loop body with its fuel/attempt invariant. -/
theorem fetchAux_const_fatal (c retries : ℕ)
    (hok : resOk c = false) (h429 : c ≠ 429) (h5 : c < 500) :
    ∀ fuel attempt waits, 1 ≤ fuel → attempt + fuel = retries + 1 →
      fetchAux (fun _ => .status c) retries attempt fuel waits
        = (.failure c, waits ++ (List.range' attempt (fuel - 1)).map (fun a => 2000 * a)) := by
  intro fuel
  induction fuel with
  | zero => intro attempt waits h _; omega
  | succ f ih =>
    intro attempt waits _ hsum
    rw [fetchAux]
    dsimp only
    rw [if_neg h429, if_neg (by omega : ¬ 500 ≤ c)]
    rw [if_pos (by simp [hok])]
    by_cases hf : f = 0
    · subst hf
      rw [if_pos (by omega)]
      simp
    · rw [if_neg (by omega : ¬ attempt = retries)]
      rw [ih (attempt + 1) (waits ++ [2000 * attempt]) (by omega) (by omega)]
      obtain ⟨g, rfl⟩ : ∃ g, f = g + 1 := ⟨f - 1, by omega⟩
      rw [List.append_assoc]
      simp [List.range'_succ]

/-- Claim C2 (corrected): a fetch whose response status is a non-2xx other
than 429 and 5xx (such as 404) is NOT failed immediately: the thrown
`HTTP` error lands in the generic catch, which retries it like a network
error with a `2000·attempt` backoff wait after every attempt but the
last, and the terminal error surfaces only on the final attempt; with the
configured `MAX_RETRIES` the client performs `retries - 1` waits. -/
theorem fetch_fatal_status_retried (retries c : ℕ)
    (hr : 1 ≤ retries) (hok : resOk c = false) (h429 : c ≠ 429) (h5 : c < 500) :
    fetchWithRetry (fun _ => .status c) retries
      = (.failure c, (List.range' 1 (retries - 1)).map (fun a => 2000 * a)) := by
  unfold fetchWithRetry
  rw [fetchAux_const_fatal c retries hok h429 h5 retries 1 [] (by omega) (by omega)]
  simp

/-- Witness for C2's amended theorem at `retries = 3`, `c = 404`. -/
theorem fetch_fatal_status_retried_witness :
    fetchWithRetry (fun _ => .status 404) 3
      = (.failure 404, (List.range' 1 2).map (fun a => 2000 * a)) :=
  fetch_fatal_status_retried 3 404 (by decide) (by decide) (by decide) (by decide)

/-- Counterexample to claim C2 as stated: a constant-404 endpoint does not
fail with zero retries and zero backoff waits; with `MAX_RETRIES = 3` the
client waits twice (2000 ms, then 4000 ms) before the terminal error. -/
theorem fetch_404_not_immediate_counterexample :
    fetchWithRetry (fun _ => .status 404) 3 = (.failure 404, [2000, 4000])
      ∧ ([2000, 4000] : List ℕ) ≠ [] := by
  constructor
  · decide
  · decide

/-- Claim C3 (corrected, amended form): the tag-based precedence is
guideline over consensus over review over case-report with default
research (not consensus first), and the title-word override (checked in
the order consensus, guideline, review) applies only when the tag-based
result is still research.  `classifySpecAmended` spells this out as a
first-match precedence list. -/
theorem article_type_precedence_amended (pubTypes : List String) (title : String) :
    classifyArticle pubTypes title = classifySpecAmended pubTypes title := by
  simp only [classifyArticle, classifySpecAmended, classifyTags]
  cases h1 : (hasTag pubTypes "practice guideline" || hasTag pubTypes "guideline") <;>
    cases h2 : hasTag pubTypes "consensus" <;>
      cases h3 : (hasTag pubTypes "review" || hasTag pubTypes "systematic review") <;>
        cases h4 : hasTag pubTypes "case reports" <;>
          cases h5 : strHas (jsLower title) "consensus" <;>
            cases h6 : strHas (jsLower title) "guideline" <;>
              cases h7 : strHas (jsLower title) "review" <;>
                simp

/-- Counterexample to claim C3 as stated: a record tagged both consensus
and guideline is classified guideline by the code, not consensus. -/
theorem article_type_counterexample :
    classifyArticle ["consensus", "guideline"] "canine enteropathy management" = .guideline
      ∧ ArticleType.guideline ≠ ArticleType.consensus := by
  constructor
  · decide
  · decide

/-- Claim C10 (confirmed): every admission cap is at least 1 — the
enrich-guidelinerefs step function only takes the values 3, 2, 1, so its
`maxToAdd <= 0` skip branch is unreachable, and the deep-scan and
rare-rescue `slice(0, Math.max(1, maxToAdd))` admits at least one record
whenever at least one qualifying candidate was fetched. -/
theorem admission_cap_positive :
    (∀ n, 1 ≤ enrichMaxToAdd n ∧ enrichMaxToAdd n ≤ 3)
    ∧ (∀ n, enrichSkip n = false)
    ∧ (∀ (articles : List ArticleInfo) (mta : Int),
        articles ≠ [] → selectTop articles mta ≠ [])
    ∧ (∀ (articles : List ArticleInfo) (n : ℕ),
        articles ≠ [] →
          (List.insertionSort enrichLe articles).take (enrichMaxToAdd n) ≠ []) := by
  refine ⟨?_, ?_, ?_, ?_⟩
  · intro n; unfold enrichMaxToAdd; split_ifs <;> omega
  · intro n; unfold enrichSkip enrichMaxToAdd; split_ifs <;> rfl
  · intro articles mta h
    unfold selectTop
    rw [Ne, List.take_eq_nil_iff]
    rintro (h0 | h0)
    · have h1 := le_max_left (1 : Int) mta
      rw [Int.toNat_eq_zero] at h0
      omega
    · unfold sortArticles at h0
      have hlen := congrArg List.length h0
      rw [List.length_insertionSort] at hlen
      exact h (List.eq_nil_of_length_eq_zero hlen)
  · intro articles n h
    rw [Ne, List.take_eq_nil_iff]
    rintro (h0 | h0)
    · have h1 : 1 ≤ enrichMaxToAdd n := by unfold enrichMaxToAdd; split_ifs <;> omega
      omega
    · have hlen := congrArg List.length h0
      rw [List.length_insertionSort] at hlen
      exact h (List.eq_nil_of_length_eq_zero hlen)

/-- Witness for C10 at concrete inputs: a single fetched candidate is
admitted even with a negative `maxToAdd` (deep scan) and at an existing
count of 7 (enrich step function). -/
theorem admission_cap_positive_witness :
    selectTop [⟨"101", "t", "j", 2020, none, false, none, .research⟩] (-4) ≠ []
    ∧ (List.insertionSort enrichLe
        [⟨"101", "t", "j", 2020, none, false, none, .research⟩]).take (enrichMaxToAdd 7) ≠ [] :=
  ⟨admission_cap_positive.2.2.1 _ (-4) (by decide),
   admission_cap_positive.2.2.2 _ 7 (by decide)⟩


/-! ### Helper computations for the fuzzy scores (rational arithmetic is
evaluated by norm_num; the bigram set computations are decidable). -/

/-- Worked value: Dice of `cat` against `cats` is 0.8. -/
theorem dice_cat_cats : diceCoefficient (getBigrams "cat") (getBigrams "cats") = 4/5 := by
  rw [show getBigrams "cat" = ["ca", "at"] from by decide,
    show getBigrams "cats" = ["ca", "at", "ts"] from by decide]
  unfold diceCoefficient
  rw [if_neg (by decide), if_neg (by decide)]
  rw [show ((["ca", "at"] : List String).countP
      (fun g => (["ca", "at", "ts"] : List String).contains g)) = 2 from by decide]
  norm_num

/-- Dice of `cat` against `dog` is 0 (disjoint bigram sets). -/
theorem dice_cat_dog : diceCoefficient (getBigrams "cat") (getBigrams "dog") = 0 := by
  rw [show getBigrams "cat" = ["ca", "at"] from by decide,
    show getBigrams "dog" = ["do", "og"] from by decide]
  unfold diceCoefficient
  rw [if_neg (by decide), if_neg (by decide)]
  rw [show ((["ca", "at"] : List String).countP
      (fun g => (["do", "og"] : List String).contains g)) = 0 from by decide]
  norm_num

/-- Rounding to three decimals leaves 0.8 unchanged. -/
theorem round3_four_fifths : round3 (4/5) = 4/5 := by
  unfold round3
  norm_num

/-- Spaced-bigram similarity of `cat` against `cats` is also 0.8. -/
theorem similarity_cat_cats : similarity "cat" "cats" = 4/5 := by
  unfold similarity
  rw [show bigramsSpaced "cat" = ["ca", "at"] from by decide,
    show bigramsSpaced "cats" = ["ca", "at", "ts"] from by decide]
  rw [if_neg (by decide)]
  rw [show ((["ca", "at"] : List String).countP
      (fun g => (["ca", "at", "ts"] : List String).contains g)) = 2 from by decide]
  norm_num

/-- Layer-3 outcome on the one-entry catalog used by claim C4. -/
theorem layer3_cat_cats :
    layer3 [⟨"cats", "dog", "", []⟩] [] "cat" "cat"
      = (4/5, some ⟨"cats", "dog", "", []⟩) := by
  unfold layer3
  rw [List.foldl_cons, List.foldl_nil]
  rw [show (([] : List String).contains "cats") = false from rfl]
  dsimp only [Bool.false_eq_true, if_false]
  rw [show jsLower "cat" = "cat" from by decide, show jsLower "dog" = "dog" from by decide]
  rw [dice_cat_cats, dice_cat_dog]
  rw [if_pos (by norm_num : (4:ℚ)/5 > 0)]
  rw [if_neg (by norm_num : ¬ ((0:ℚ) > 4/5))]
  rfl

/-- The dedupe resolver's verdict on `cat` against a catalog holding
`cats`: no duplicate. -/
theorem isDuplicate_cat_cats :
    isDuplicate "cat" [⟨"cats", "cats", "cats", []⟩] ["cats"] = ⟨false, none, none⟩ := by
  unfold isDuplicate
  rw [if_neg (by decide)]
  rw [show normalizeName "cat" = "cat" from by decide]
  unfold dupLoop
  dsimp only
  rw [if_neg (by decide)]
  rw [if_neg (by decide)]
  rw [show similarity "cat" "cats" = 4/5 from similarity_cat_cats]
  rw [if_neg (by norm_num : ¬ ((4:ℚ)/5 > 0.85))]
  rw [if_neg (by decide)]
  rfl

/-- The cross-catalog resolver accepts `cat` against `cats` through the
fuzzy tier at its 0.7 threshold, scoring 0.8. -/
theorem matchBook_cat_cats :
    matchBook [⟨"cats", "dog", "", []⟩] [] "cat" ⟨"", "cat", []⟩
      = ⟨some "cats", "dice", 4/5⟩ := by
  unfold matchBook
  dsimp only
  rw [show mlook (buildSlugMap [⟨"cats", "dog", "", []⟩]) "cat" = none from by decide]
  rw [show mlook (buildEnMap [⟨"cats", "dog", "", []⟩]) (jsLower "cat") = none from by decide]
  dsimp only
  rw [layer3_cat_cats]
  dsimp only
  rw [if_pos (by norm_num : (4:ℚ)/5 ≥ 0.7)]
  rw [round3_four_fifths]
  rfl

/-- Claim C4 (confirmed): the fuzzy score of `cat` against `cats` is the
bigram Dice coefficient 2·2/(2+3) = 0.8; the duplicate-detection resolver
(acceptance only above 0.85) reports no duplicate for this pair, while
the cross-catalog resolver (acceptance at 0.7) resolves it through the
fuzzy tier with score 0.8. -/
theorem dice_cat_cats_thresholds :
    diceCoefficient (getBigrams "cat") (getBigrams "cats") = 4/5
    ∧ ¬ ((4 : ℚ)/5 > 0.85)
    ∧ ((4 : ℚ)/5 ≥ 0.7)
    ∧ isDuplicate "cat" [⟨"cats", "cats", "cats", []⟩] ["cats"] = ⟨false, none, none⟩
    ∧ matchBook [⟨"cats", "dog", "", []⟩] [] "cat" ⟨"", "cat", []⟩
        = ⟨some "cats", "dice", 4/5⟩ :=
  ⟨dice_cat_cats, by norm_num, by norm_num, isDuplicate_cat_cats, matchBook_cat_cats⟩

/-- Claim C9 (code bug): `extractText` on a mixed text/tag title node
returns only the object's top-level `#text` entry and drops the text that
sat inside the inline tag: the tag content (`Babesia canis`, held under
the `i` key) does not occur in the extracted title, although the
all-values concatenation branch of the same function would have kept it. -/
theorem extractText_drops_inline_tag_text :
    extractText (.jobj (.fcons "#text" (.jstr "Influence of  infection on canine outcomes")
        (.fcons "i" (.jstr "Babesia canis") .fnil)))
      = "Influence of  infection on canine outcomes"
    ∧ strHas (extractText (.jobj (.fcons "#text" (.jstr "Influence of  infection on canine outcomes")
        (.fcons "i" (.jstr "Babesia canis") .fnil)))) "Babesia" = false
    ∧ extractTextAll (.fcons "#text" (.jstr "Influence of  infection on canine outcomes")
        (.fcons "i" (.jstr "Babesia canis") .fnil))
      = "Influence of  infection on canine outcomes" ++ "Babesia canis" := by
  refine ⟨rfl, by decide, rfl⟩

/-! ### Helper lemmas for the orchestrators (claim C8) -/

/-- Unfolded characterization of the deep-scan batch fold: entities are
processed independently, successes land in `merged` and failures in
`errors`, from any starting accumulator. -/
theorem scanBatch_go (proc : String → Except String ℕ) :
    ∀ (entities : List String) (init : ScanRes),
      (entities.foldl
        (fun acc e =>
          match proc e with
          | .ok n => { acc with totalAdded := acc.totalAdded + n, merged := acc.merged ++ [e] }
          | .error _ => { acc with errors := acc.errors ++ [e] })
        init).merged
        = init.merged ++ entities.filter (fun e => isOkE (proc e))
      ∧ (entities.foldl
        (fun acc e =>
          match proc e with
          | .ok n => { acc with totalAdded := acc.totalAdded + n, merged := acc.merged ++ [e] }
          | .error _ => { acc with errors := acc.errors ++ [e] })
        init).errors
        = init.errors ++ entities.filter (fun e => !isOkE (proc e)) := by
  intro entities
  induction entities with
  | nil => intro init; simp
  | cons e rest ih =>
    intro init
    cases hp : proc e with
    | ok n =>
      simp only [List.foldl_cons, hp, List.filter_cons, isOkE]
      obtain ⟨ih1, ih2⟩ := ih { init with totalAdded := init.totalAdded + n, merged := init.merged ++ [e] }
      refine ⟨?_, ?_⟩
      · rw [ih1]; simp [isOkE]
      · rw [ih2]; simp [isOkE]
    | error msg =>
      simp only [List.foldl_cons, hp, List.filter_cons, isOkE]
      obtain ⟨ih1, ih2⟩ := ih { init with errors := init.errors ++ [e] }
      refine ⟨?_, ?_⟩
      · rw [ih1]; simp [isOkE]
      · rw [ih2]; simp [isOkE]

/-- The update-pubmed query loop finalizes with status `failed` whenever
some query in the remaining list fails, from any accumulator state. -/
theorem updatePubmedRun_go_failed (runQ : String → Except String ℕ) :
    ∀ (queries : List String) (acc : ℕ) (merged : List String),
      (∃ q ∈ queries, isOkE (runQ q) = false) →
        (updatePubmedRun.go runQ queries acc merged).1.status = "failed" := by
  intro queries
  induction queries with
  | nil => intro acc merged h; simp at h
  | cons q rest ih =>
    intro acc merged h
    cases hq : runQ q with
    | ok n =>
      rw [updatePubmedRun.go, hq]
      apply ih
      rcases h with ⟨p, hp, hfail⟩
      rcases List.mem_cons.mp hp with rfl | hp'
      · rw [hq] at hfail; simp [isOkE] at hfail
      · exact ⟨p, hp', hfail⟩
    | error e =>
      rw [updatePubmedRun.go, hq]

/-- Claim C8 (corrected, amended form): in the YAML enrichment batch loops
a per-entity failure is caught and the remaining entities are still
processed — the merged set is exactly the successfully processed entities
and the error log exactly the failing ones, independent of position; but
no run is finalized with a `partial` status there, and in the
update-pubmed pipeline a single failing query aborts the batch and
finalizes the run log with status `failed`. -/
theorem partial_failure_amended :
    (∀ (entities : List String) (proc : String → Except String ℕ),
      (scanBatch entities proc).merged = entities.filter (fun e => isOkE (proc e))
      ∧ (scanBatch entities proc).errors = entities.filter (fun e => !isOkE (proc e)))
    ∧ (∀ (queries : List String) (runQ : String → Except String ℕ),
        (∃ q ∈ queries, isOkE (runQ q) = false) →
          (updatePubmedRun queries runQ).1.status = "failed") := by
  constructor
  · intro entities proc
    unfold scanBatch
    obtain ⟨h1, h2⟩ := scanBatch_go proc entities ⟨0, [], []⟩
    rw [h1, h2]
    constructor <;> simp
  · intro queries runQ h
    exact updatePubmedRun_go_failed runQ queries 0 [] h

/-- Witness for C8's amended theorem: in a batch of three entities where
entity 2 fails permanently, the scan loop still merges entities 1 and 3,
and the update-pubmed loop finalizes with status `failed`. -/
theorem partial_failure_amended_witness :
    (scanBatch ["e1", "e2", "e3"]
        (fun q => if q = "e2" then Except.error "HTTP 404" else Except.ok 1)).merged
      = ["e1", "e3"]
    ∧ (updatePubmedRun ["e1", "e2", "e3"]
        (fun q => if q = "e2" then Except.error "HTTP 404" else Except.ok 1)).1.status
      = "failed" := by
  constructor
  · rw [(partial_failure_amended.1 ["e1", "e2", "e3"]
      (fun q => if q = "e2" then Except.error "HTTP 404" else Except.ok 1)).1]
    decide
  · exact partial_failure_amended.2 ["e1", "e2", "e3"]
      (fun q => if q = "e2" then Except.error "HTTP 404" else Except.ok 1)
      ⟨"e2", by decide, by decide⟩

/-- Counterexample to claim C8 as stated: in the update-pubmed pipeline a
batch of three per-disease queries where query 2's fetch permanently fails
is aborted — query 3 is never merged — and the run is finalized with
terminal status `failed`, not `partial`. -/
theorem pubmed_run_aborts_counterexample :
    updatePubmedRun ["disease-1", "disease-2", "disease-3"]
        (fun q => if q = "disease-2" then Except.error "HTTP 404" else Except.ok 1)
      = (⟨1, "failed"⟩, ["disease-1"])
    ∧ ("failed" : String) ≠ "partial" := by
  refine ⟨by decide, by decide⟩

/-! ### Helper lemmas for merge idempotence (claim C1) -/

/-- Keys already mapped survive the xref insert loop. -/
theorem syncXrefs_mem_preserved (xs : List CrossReference) :
    ∀ (m : List (String × String)) (k : String × String),
      k ∈ m → k ∈ (syncXrefs m xs).2 := by
  induction xs with
  | nil => intro m k h; exact h
  | cons x rest ih =>
    intro m k h
    rw [syncXrefs]
    by_cases hc : m.contains (x.source, x.code)
    · rw [if_pos hc]; exact ih m k h
    · rw [if_neg hc]
      exact ih (m ++ [(x.source, x.code)]) k (List.mem_append_left _ h)

/-- After the loop, every cross-reference key of the input is mapped. -/
theorem syncXrefs_key_mem (xs : List CrossReference) :
    ∀ (m : List (String × String)) (x : CrossReference),
      x ∈ xs → (x.source, x.code) ∈ (syncXrefs m xs).2 := by
  induction xs with
  | nil => intro m x h; simp at h
  | cons y rest ih =>
    intro m x h
    rw [syncXrefs]
    rcases List.mem_cons.mp h with rfl | h'
    · by_cases hc : m.contains (x.source, x.code)
      · rw [if_pos hc]
        exact syncXrefs_mem_preserved rest m _ (List.elem_iff.mp hc)
      · rw [if_neg hc]
        exact syncXrefs_mem_preserved rest _ _ (List.mem_append_right _ (by simp))
    · by_cases hc : m.contains (y.source, y.code)
      · rw [if_pos hc]; exact ih m x h'
      · rw [if_neg hc]; exact ih _ x h'

/-- When every key is already mapped, the loop inserts nothing. -/
theorem syncXrefs_noop (xs : List CrossReference) :
    ∀ (m : List (String × String)),
      (∀ x ∈ xs, (x.source, x.code) ∈ m) → syncXrefs m xs = (0, m) := by
  induction xs with
  | nil => intro m _; rfl
  | cons y rest ih =>
    intro m h
    rw [syncXrefs, if_pos (List.elem_iff.mpr (h y (by simp)))]
    exact ih m (fun x hx => h x (List.mem_cons_of_mem y hx))

/-- State of the references table after one `runQuery`: previous pmids
plus the pmids of the articles fetched for the not-yet-present ids. -/
theorem runQuery_state (db idlist : List String) (details : String → Option PubMedArticle) :
    (runQuery db idlist details).2
      = db ++ ((idlist.filter (fun p => !db.contains p)).filterMap details).map
          (fun a => a.pmid) := by
  unfold runQuery
  by_cases h1 : idlist.isEmpty
  · rw [if_pos h1, List.isEmpty_iff.mp h1]
    simp
  · simp only [h1, Bool.false_eq_true, if_false]
    by_cases h2 : (idlist.filter (fun p => !db.contains p)).isEmpty
    · rw [if_pos h2, List.isEmpty_iff.mp h2]
      simp
    · simp only [h2, Bool.false_eq_true, if_false]

/-- Count reported by one `runQuery`: the number of fetched articles. -/
theorem runQuery_added (db idlist : List String) (details : String → Option PubMedArticle) :
    (runQuery db idlist details).1
      = ((idlist.filter (fun p => !db.contains p)).filterMap details).length := by
  unfold runQuery
  by_cases h1 : idlist.isEmpty
  · rw [if_pos h1, List.isEmpty_iff.mp h1]
    simp
  · simp only [h1, Bool.false_eq_true, if_false]
    by_cases h2 : (idlist.filter (fun p => !db.contains p)).isEmpty
    · rw [if_pos h2, List.isEmpty_iff.mp h2]
      simp
    · simp only [h2, Bool.false_eq_true, if_false]

/-- Claim C1 (confirmed): with an unchanged external input set, the second
merge run inserts nothing and reports `added = 0` — for the update-pubmed
`runQuery` step under the detail-endpoint interface invariant (a record
returned for a requested id carries that id), and for the ontology-sync
cross-reference insert loop unconditionally. -/
theorem merge_idempotent
    (db idlist : List String) (details : String → Option PubMedArticle)
    (hdet : ∀ p a, details p = some a → a.pmid = p)
    (m : List (String × String)) (xs : List CrossReference) :
    (runQuery (runQuery db idlist details).2 idlist details).1 = 0
    ∧ (runQuery (runQuery db idlist details).2 idlist details).2
        = (runQuery db idlist details).2
    ∧ (syncXrefs (syncXrefs m xs).2 xs).1 = 0
    ∧ (syncXrefs (syncXrefs m xs).2 xs).2 = (syncXrefs m xs).2 := by
  have hx := syncXrefs_noop xs (syncXrefs m xs).2
    (fun x hx => syncXrefs_key_mem xs m x hx)
  have hnone : ∀ p ∈ idlist.filter (fun p => !(runQuery db idlist details).2.contains p),
      details p = none := by
    intro p hp
    obtain ⟨hpl, hpc⟩ := List.mem_filter.mp hp
    have hpc' : p ∉ (runQuery db idlist details).2 := by
      intro hmem
      simp [hmem] at hpc
    by_contra hsome
    rcases Option.ne_none_iff_exists'.mp hsome with ⟨a, ha⟩
    have hpa : a.pmid = p := hdet p a ha
    have hpdb : p ∉ db := fun hmem =>
      hpc' (by rw [runQuery_state]; exact List.mem_append_left _ hmem)
    have hpnew : p ∈ idlist.filter (fun p => !db.contains p) :=
      List.mem_filter.mpr ⟨hpl, by simpa using hpdb⟩
    have hamem : a ∈ (idlist.filter (fun p => !db.contains p)).filterMap details :=
      List.mem_filterMap.mpr ⟨p, hpnew, ha⟩
    exact hpc' (by
      rw [runQuery_state]
      exact List.mem_append_right _ (hpa ▸ List.mem_map_of_mem _ hamem))
  refine ⟨?_, ?_, by rw [hx], by rw [hx]⟩
  · rw [runQuery_added, List.filterMap_eq_nil_iff.mpr hnone]
    rfl
  · rw [runQuery_state (runQuery db idlist details).2 idlist details,
      List.filterMap_eq_nil_iff.mpr hnone]
    simp

/-- Witness for C1 at a concrete input: one search id, a details oracle
answering it, an empty initial table, and one cross-reference over an
empty mapping set. -/
theorem merge_idempotent_witness :
    (runQuery (runQuery [] ["31253"]
        (fun p => if p = "31253"
          then some ⟨"31253", "t", [], "j", 2021, none, true⟩ else none)).2 ["31253"]
        (fun p => if p = "31253"
          then some ⟨"31253", "t", [], "j", 2021, none, true⟩ else none)).1 = 0
    ∧ (syncXrefs (syncXrefs [] [⟨"DOID", "DOID:9351", none, .exact⟩]).2
        [⟨"DOID", "DOID:9351", none, .exact⟩]).1 = 0 := by
  have h := merge_idempotent [] ["31253"]
    (fun p => if p = "31253"
      then some ⟨"31253", "t", [], "j", 2021, none, true⟩ else none)
    (by
      intro p a ha
      dsimp only at ha
      split at ha
      · cases ha
        rename_i hp
        subst hp
        rfl
      · cases ha)
    [] [⟨"DOID", "DOID:9351", none, .exact⟩]
  exact ⟨h.1, h.2.2.1⟩

/-- Counterexample to claim C5 as stated: an external record whose
synonym `Renal failure` exactly matches (after lowercasing) a canonical
alias of `chronic-kidney-disease` resolves through the synonym tier with
score 0.95, not 1.0. -/
theorem synonym_score_counterexample :
    matchBook [⟨"chronic-kidney-disease", "Chronic kidney disease", "", ["Renal failure"]⟩]
        [] "kidney-failure" ⟨"", "Kidney failure", ["Renal failure"]⟩
      = ⟨some "chronic-kidney-disease", "synonym", 0.95⟩
    ∧ (0.95 : ℚ) ≠ 1 := by
  constructor
  · unfold matchBook
    dsimp only
    rw [show mlook (buildSlugMap
        [⟨"chronic-kidney-disease", "Chronic kidney disease", "", ["Renal failure"]⟩])
        "kidney-failure" = none from by decide]
    rw [show mlook (buildEnMap
        [⟨"chronic-kidney-disease", "Chronic kidney disease", "", ["Renal failure"]⟩])
        (jsLower "Kidney failure") = none from by decide]
    dsimp only
    rw [show synLoop
        (buildEnMap [⟨"chronic-kidney-disease", "Chronic kidney disease", "", ["Renal failure"]⟩])
        (buildSlugMap [⟨"chronic-kidney-disease", "Chronic kidney disease", "", ["Renal failure"]⟩])
        ["Renal failure"]
        = some ⟨"chronic-kidney-disease", "Chronic kidney disease", "", ["Renal failure"]⟩
      from by decide]
    rfl
  · norm_num

/-- Claim C5 (corrected, amended form): when the slug tier misses, an
external name equal after lowercasing to a canonical primary name or
alias resolves through the name map with method `name-exact` and score
1.0; a localized-name match yields method `name-zh` with score 1.0; and a
hit found through the external record's own synonym list yields method
`synonym` with score 0.95 — not 1.0. -/
theorem alias_synonym_scores_amended
    (ds : List VetProDisease) (matched : List String)
    (bookSlug : String) (info : BookInfo) :
    (mlook (buildSlugMap ds) bookSlug = none →
      ∀ vp, mlook (buildEnMap ds) (jsLower info.en) = some vp →
        matchBook ds matched bookSlug info = ⟨some vp.slug, "name-exact", 1⟩)
    ∧ (mlook (buildSlugMap ds) bookSlug = none →
      mlook (buildEnMap ds) (jsLower info.en) = none →
      ∀ vp, (if !info.zh.isEmpty then mlook (buildZhMap ds) info.zh else none) = some vp →
        matchBook ds matched bookSlug info = ⟨some vp.slug, "name-zh", 1⟩)
    ∧ (mlook (buildSlugMap ds) bookSlug = none →
      mlook (buildEnMap ds) (jsLower info.en) = none →
      (if !info.zh.isEmpty then mlook (buildZhMap ds) info.zh else none) = none →
      ∀ vp, synLoop (buildEnMap ds) (buildSlugMap ds) info.synonyms = some vp →
        matchBook ds matched bookSlug info = ⟨some vp.slug, "synonym", 0.95⟩) := by
  refine ⟨?_, ?_, ?_⟩
  · intro h1 vp h2
    unfold matchBook
    dsimp only
    rw [h1, h2]
  · intro h1 h2 vp h3
    unfold matchBook
    dsimp only
    rw [h1, h2, h3]
  · intro h1 h2 h3 vp h4
    unfold matchBook
    dsimp only
    rw [h1, h2, h3, h4]

/-- Witness for C5's amended theorem: an external name equal to a
canonical alias resolves with method `name-exact` and score 1.0. -/
theorem alias_synonym_scores_amended_witness :
    matchBook [⟨"chronic-kidney-disease", "Chronic kidney disease", "", ["Renal failure"]⟩]
        [] "renal-failure" ⟨"", "Renal failure", []⟩
      = ⟨some "chronic-kidney-disease", "name-exact", 1⟩ :=
  (alias_synonym_scores_amended
      [⟨"chronic-kidney-disease", "Chronic kidney disease", "", ["Renal failure"]⟩]
      [] "renal-failure" ⟨"", "Renal failure", []⟩).1
    (by decide)
    ⟨"chronic-kidney-disease", "Chronic kidney disease", "", ["Renal failure"]⟩
    (by decide)

/-! ### Helper lemmas for the ranker and selector (claims C6, C7) -/

/-- The deep-scan comparator's non-strict order is the lexicographic order
on (open-access flag, type priority, year descending). -/
theorem deepLe_iff (a b : ArticleInfo) :
    deepLe a b ↔
      ((if a.isPmc then (0 : Int) else 5) + typeRank a.articleType
          < (if b.isPmc then (0 : Int) else 5) + typeRank b.articleType
        ∨ ((if a.isPmc then (0 : Int) else 5) + typeRank a.articleType
            = (if b.isPmc then (0 : Int) else 5) + typeRank b.articleType
          ∧ b.year ≤ a.year)) := by
  unfold deepLe jsCmpDeep
  cases ha : a.isPmc <;> cases hb : b.isPmc <;>
    cases ta : a.articleType <;> cases tb : b.articleType <;>
      simp [typeRank]

/-- The stable sort under the deep-scan comparator is sorted. -/
theorem sorted_sortArticles (l : List ArticleInfo) :
    List.Sorted deepLe (sortArticles l) := by
  haveI : IsTotal ArticleInfo deepLe :=
    ⟨by intro a b; rw [deepLe_iff, deepLe_iff]; omega⟩
  haveI : IsTrans ArticleInfo deepLe :=
    ⟨by intro a b c h1 h2; rw [deepLe_iff] at *; omega⟩
  exact List.sorted_insertionSort deepLe l

/-- Candidate collection keeps only ids outside the existing set and
introduces no duplicate, for any starting accumulator with the same
property. -/
theorem addCandidates_inv (existing : List String) :
    ∀ (q acc : List String),
      ((∀ p ∈ acc, p ∉ existing) ∧ acc.Nodup) →
      ((∀ p ∈ addCandidates existing acc q, p ∉ existing)
        ∧ (addCandidates existing acc q).Nodup) := by
  intro q
  induction q with
  | nil => intro acc h; exact h
  | cons p rest ih =>
    intro acc h
    rw [addCandidates, List.foldl_cons]
    by_cases hc : (existing.contains p || acc.contains p) = true
    · rw [if_pos hc]
      exact ih acc h
    · rw [if_neg hc]
      simp only [Bool.or_eq_true, not_or, Bool.not_eq_true] at hc
      apply ih
      constructor
      · intro x hx
        rcases List.mem_append.mp hx with hx' | hx'
        · exact h.1 x hx'
        · rw [List.mem_singleton.mp hx']
          intro hmem
          have hcc := hc.1
          simp [hmem] at hcc
      · rw [List.nodup_append]
        refine ⟨h.2, List.nodup_singleton p, ?_⟩
        intro x hx hx'
        rw [List.mem_singleton.mp hx'] at hx
        have hcc := hc.2
        simp [hx] at hcc

/-- Invariant of the whole collection loop. -/
theorem deepCollect_inv (queries : List (List String)) (existing : List String) :
    (∀ p ∈ deepCollect queries existing, p ∉ existing)
      ∧ (deepCollect queries existing).Nodup := by
  unfold deepCollect
  suffices h : ∀ (qs : List (List String)) (acc : List String),
      ((∀ p ∈ acc, p ∉ existing) ∧ acc.Nodup) →
      ((∀ p ∈ collectLoop existing qs acc, p ∉ existing)
        ∧ (collectLoop existing qs acc).Nodup) by
    exact h queries [] ⟨by simp, List.nodup_nil⟩
  intro qs
  induction qs with
  | nil => intro acc h; exact h
  | cons q rest ih =>
    intro acc h
    rw [collectLoop]
    by_cases hl : 15 ≤ acc.length
    · rw [if_pos hl]; exact h
    · rw [if_neg hl]
      exact ih _ (addCandidates_inv existing q acc h)

/-- Pmids of the fetched article list, under the detail-endpoint interface
invariant: they are exactly the requested ids that yielded a record. -/
theorem filterMap_pmids (details : String → Option ArticleInfo)
    (hdet : ∀ p a, details p = some a → a.pmid = p) :
    ∀ (l : List String),
      (l.filterMap details).map (fun a => a.pmid)
        = l.filter (fun p => (details p).isSome) := by
  intro l
  induction l with
  | nil => rfl
  | cons p t ih =>
    cases h : details p with
    | none => simp [List.filterMap_cons, h, ih]
    | some a => simp [List.filterMap_cons, h, ih, hdet p a h]

/-- The fetched articles carry pairwise distinct pmids. -/
theorem deepArticles_pmid_nodup (queries : List (List String)) (existing : List String)
    (details : String → Option ArticleInfo)
    (hdet : ∀ p a, details p = some a → a.pmid = p) :
    ((deepArticles queries existing details).map (fun a => a.pmid)).Nodup := by
  unfold deepArticles
  rw [filterMap_pmids details hdet]
  exact (((deepCollect_inv queries existing).2.sublist
    (List.take_sublist 15 _)).filter _)

/-- Every selected article is one of the fetched articles. -/
theorem mem_deepSelect (queries : List (List String)) (existing : List String)
    (details : String → Option ArticleInfo) (mta : Int) (a : ArticleInfo)
    (ha : a ∈ deepSelect queries existing details mta) :
    a ∈ deepArticles queries existing details := by
  unfold deepSelect selectTop at ha
  exact (List.perm_insertionSort deepLe _).mem_iff.mp (List.mem_of_mem_take ha)

/-- Every fetched article comes from a requested candidate id. -/
theorem mem_deepArticles (queries : List (List String)) (existing : List String)
    (details : String → Option ArticleInfo) (a : ArticleInfo)
    (ha : a ∈ deepArticles queries existing details) :
    ∃ p ∈ (deepCollect queries existing).take 15, details p = some a :=
  List.mem_filterMap.mp ha

/-- A selected article's pmid is never one of the already-present ids. -/
theorem deepSelect_pmid_fresh (queries : List (List String)) (existing : List String)
    (details : String → Option ArticleInfo) (mta : Int)
    (hdet : ∀ p a, details p = some a → a.pmid = p) :
    ∀ a ∈ deepSelect queries existing details mta, a.pmid ∉ existing := by
  intro a ha
  obtain ⟨p, hp, hpa⟩ := mem_deepArticles queries existing details a
    (mem_deepSelect queries existing details mta a ha)
  rw [hdet p a hpa]
  exact (deepCollect_inv queries existing).1 p (List.mem_of_mem_take hp)

/-- Claim C6 (confirmed): for any candidate queries, already-present id
set and positive cap, the deep-scan selection drops candidates whose
identifier is already present, and admits exactly the top
`min(cap, remaining)` of the fetched candidates under the comparator
order (open access first, then type priority `consensus, guideline,
review, case-report, research`, then year descending): the admitted list
is sorted, has that length, and ranks no worse than every rejected
candidate. -/
theorem selection_ranked_top
    (queries : List (List String)) (existing : List String)
    (details : String → Option ArticleInfo) (cap : Int)
    (hdet : ∀ p a, details p = some a → a.pmid = p) (hcap : 1 ≤ cap) :
    (∀ a ∈ deepSelect queries existing details cap, a.pmid ∉ existing)
    ∧ (deepSelect queries existing details cap).length
        = min cap.toNat (deepArticles queries existing details).length
    ∧ List.Sorted deepLe (deepSelect queries existing details cap)
    ∧ ∃ rest,
        List.Perm (deepSelect queries existing details cap ++ rest)
          (deepArticles queries existing details)
        ∧ ∀ a ∈ deepSelect queries existing details cap, ∀ b ∈ rest, deepLe a b := by
  have hmax : max 1 cap = cap := max_eq_right hcap
  refine ⟨deepSelect_pmid_fresh queries existing details cap hdet, ?_, ?_, ?_⟩
  · unfold deepSelect selectTop
    rw [List.length_take, hmax]
    unfold sortArticles
    rw [List.length_insertionSort]
  · exact (sorted_sortArticles _).sublist
      (List.take_sublist _ _)
  · refine ⟨(sortArticles (deepArticles queries existing details)).drop (max 1 cap).toNat,
      ?_, ?_⟩
    · unfold deepSelect selectTop
      rw [List.take_append_drop]
      exact List.perm_insertionSort deepLe _
    · intro a ha b hb
      have hsorted := sorted_sortArticles (deepArticles queries existing details)
      have hsplit : sortArticles (deepArticles queries existing details)
          = (sortArticles (deepArticles queries existing details)).take (max 1 cap).toNat
            ++ (sortArticles (deepArticles queries existing details)).drop (max 1 cap).toNat :=
        (List.take_append_drop _ _).symm
      rw [hsplit] at hsorted
      exact (List.pairwise_append.mp hsorted).2.2 a ha b hb

/-- Witness for C6 at a concrete input: five qualifying fetched candidates
with cap 2 — nothing already present is admitted, exactly
`min(2, 5) = 2` records are admitted, and the admitted list is sorted by
the comparator. -/
theorem selection_ranked_top_witness :
    (∀ a ∈ deepSelect [["1", "2", "3", "4", "5"]] [] (fun p =>
          if p = "1" then some ⟨"1", "t1", "j", 2018, none, false, none, .research⟩
          else if p = "2" then some ⟨"2", "t2", "j", 2020, none, true, some "PMC2", .review⟩
          else if p = "3" then some ⟨"3", "t3", "j", 2019, none, true, some "PMC3", .guideline⟩
          else if p = "4" then some ⟨"4", "t4", "j", 2022, none, false, none, .consensus⟩
          else if p = "5" then some ⟨"5", "t5", "j", 2021, none, true, some "PMC5", .review⟩
          else none) 2,
        a.pmid ∉ ([] : List String))
    ∧ (deepSelect [["1", "2", "3", "4", "5"]] [] (fun p =>
          if p = "1" then some ⟨"1", "t1", "j", 2018, none, false, none, .research⟩
          else if p = "2" then some ⟨"2", "t2", "j", 2020, none, true, some "PMC2", .review⟩
          else if p = "3" then some ⟨"3", "t3", "j", 2019, none, true, some "PMC3", .guideline⟩
          else if p = "4" then some ⟨"4", "t4", "j", 2022, none, false, none, .consensus⟩
          else if p = "5" then some ⟨"5", "t5", "j", 2021, none, true, some "PMC5", .review⟩
          else none) 2).length
        = min (2 : Int).toNat
            (deepArticles [["1", "2", "3", "4", "5"]] [] (fun p =>
          if p = "1" then some ⟨"1", "t1", "j", 2018, none, false, none, .research⟩
          else if p = "2" then some ⟨"2", "t2", "j", 2020, none, true, some "PMC2", .review⟩
          else if p = "3" then some ⟨"3", "t3", "j", 2019, none, true, some "PMC3", .guideline⟩
          else if p = "4" then some ⟨"4", "t4", "j", 2022, none, false, none, .consensus⟩
          else if p = "5" then some ⟨"5", "t5", "j", 2021, none, true, some "PMC5", .review⟩
          else none)).length
    ∧ List.Sorted deepLe (deepSelect [["1", "2", "3", "4", "5"]] [] (fun p =>
          if p = "1" then some ⟨"1", "t1", "j", 2018, none, false, none, .research⟩
          else if p = "2" then some ⟨"2", "t2", "j", 2020, none, true, some "PMC2", .review⟩
          else if p = "3" then some ⟨"3", "t3", "j", 2019, none, true, some "PMC3", .guideline⟩
          else if p = "4" then some ⟨"4", "t4", "j", 2022, none, false, none, .consensus⟩
          else if p = "5" then some ⟨"5", "t5", "j", 2021, none, true, some "PMC5", .review⟩
          else none) 2) := by
  have h := selection_ranked_top [["1", "2", "3", "4", "5"]] [] (fun p =>
          if p = "1" then some ⟨"1", "t1", "j", 2018, none, false, none, .research⟩
          else if p = "2" then some ⟨"2", "t2", "j", 2020, none, true, some "PMC2", .review⟩
          else if p = "3" then some ⟨"3", "t3", "j", 2019, none, true, some "PMC3", .guideline⟩
          else if p = "4" then some ⟨"4", "t4", "j", 2022, none, false, none, .consensus⟩
          else if p = "5" then some ⟨"5", "t5", "j", 2021, none, true, some "PMC5", .review⟩
          else none) 2
    (by
      intro p a ha
      dsimp only at ha
      split at ha
      · cases ha; rename_i hp; rw [hp]
      · split at ha
        · cases ha; rename_i hp; rw [hp]
        · split at ha
          · cases ha; rename_i hp; rw [hp]
          · split at ha
            · cases ha; rename_i hp; rw [hp]
            · split at ha
              · cases ha; rename_i hp; rw [hp]
              · cases ha)
    (by norm_num)
  exact ⟨h.1, h.2.1, h.2.2.1⟩

/-! ### Helper lemmas for pmid extraction from URLs (claim C7) -/

/-- An initial-segment test succeeds exactly on list prefixes. -/
theorem leadsWith_iff (p : List Char) : ∀ l, leadsWith p l = true ↔ ∃ t, l = p ++ t := by
  induction p with
  | nil => intro l; simp [leadsWith]
  | cons a as ih =>
    intro l
    cases l with
    | nil => simp [leadsWith]
    | cons b bs =>
      simp only [leadsWith, Bool.and_eq_true, beq_iff_eq, ih bs, List.cons_append]
      constructor
      · rintro ⟨rfl, t, rfl⟩; exact ⟨t, rfl⟩
      · rintro ⟨t, ht⟩
        injection ht with h1 h2
        exact ⟨h1.symm, t, h2⟩

/-- A pattern match cannot start on a position whose first character
already differs. -/
theorem leadsWith_false_head (p1 : Char) (ps : List Char) (c : Char) (l : List Char)
    (h : p1 ≠ c) : leadsWith (p1 :: ps) (c :: l) = false := by
  simp [leadsWith, h]

/-- Nor on one whose second character differs. -/
theorem leadsWith_false_second (p1 p2 : Char) (ps : List Char) (c1 c2 : Char) (l : List Char)
    (h : p2 ≠ c2) : leadsWith (p1 :: p2 :: ps) (c1 :: c2 :: l) = false := by
  simp [leadsWith, h]

/-- Skipping a concrete URL prefix: when every window starting inside `u`
already mismatches the pattern within its first two characters of `u`,
the first-occurrence search continues past `u` unchanged. -/
theorem findAfterPat_skip (p u v : List Char) (hp : 2 ≤ p.length)
    (h : ∀ i, i < u.length → p[0]? ≠ u[i]? ∨ (i + 1 < u.length ∧ p[1]? ≠ u[i+1]?)) :
    findAfterPat p (u ++ v) = findAfterPat p v := by
  induction u with
  | nil => rfl
  | cons c t ih =>
    rcases p with _ | ⟨p1, ps⟩
    · simp at hp
    rcases ps with _ | ⟨p2, ps⟩
    · simp at hp
    have h0 := h 0 (by simp)
    have hlw : leadsWith (p1 :: p2 :: ps) (c :: (t ++ v)) = false := by
      rcases h0 with h0 | ⟨hlt, hne⟩
      · simp only [List.getElem?_cons_zero] at h0
        exact leadsWith_false_head _ _ _ _ (by simpa using h0)
      · rcases t with _ | ⟨t1, ts⟩
        · simp at hlt
        · simp only [List.getElem?_cons_succ, List.getElem?_cons_zero] at hne
          exact leadsWith_false_second _ _ _ _ _ _ (by simpa using hne)
    rw [List.cons_append, findAfterPat, if_neg (by simp [hlw])]
    exact ih (fun i hi => by
      have := h (i + 1) (by simpa using Nat.succ_lt_succ hi)
      simpa using this)

/-- The search finds the pattern at its own occurrence and returns what
follows. -/
theorem findAfterPat_self (c : Char) (cs t : List Char) :
    findAfterPat (c :: cs) ((c :: cs) ++ t) = some t := by
  rw [List.cons_append, findAfterPat,
    if_pos (by rw [← List.cons_append]; exact (leadsWith_iff _ _).mpr ⟨t, rfl⟩)]
  rw [← List.cons_append, List.drop_left]

/-- The pubmed host pattern contains a dot, so it never occurs in a
dot-free character list. -/
theorem findAfterPat_no_dot : ∀ (l : List Char), (∀ c ∈ l, c ≠ '.') →
    findAfterPat pubmedPat l = none := by
  intro l
  induction l with
  | nil => intro _; rfl
  | cons c t ih =>
    intro h
    have hlw : leadsWith pubmedPat (c :: t) = false := by
      by_contra hw
      have hw' : leadsWith pubmedPat (c :: t) = true := by
        cases hx : leadsWith pubmedPat (c :: t) <;> simp_all
      obtain ⟨r, hr⟩ := (leadsWith_iff _ _).mp hw'
      have hdot : '.' ∈ (c :: t) := by
        rw [hr]
        exact List.mem_append_left r (by decide)
      exact h '.' hdot rfl
    rw [findAfterPat, if_neg (by simp [hlw])]
    exact ih (fun x hx => h x (List.mem_cons_of_mem c hx))

/-- takeWhile over an append whose first part satisfies the predicate. -/
theorem takeWhile_all_append (p : Char → Bool) (xs ys : List Char) (h : ∀ x ∈ xs, p x) :
    (xs ++ ys).takeWhile p = xs ++ ys.takeWhile p := by
  induction xs with
  | nil => simp
  | cons a t ih => simp_all [List.takeWhile_cons]

/-- The pmid embedded in a written pubmed URL is exactly the article's
pmid (pmids are nonempty digit strings). -/
theorem urlPmid_pubmedUrl (pmid : String) (hne : pmid.data ≠ [])
    (hdig : ∀ c ∈ pmid.data, c.isDigit) :
    urlPmid (pubmedUrl pmid) = some pmid := by
  unfold urlPmid pubmedUrl
  rw [String.data_append, String.data_append]
  rw [show ("https://pubmed.ncbi.nlm.nih.gov/").data = "https://".data ++ pubmedPat from rfl]
  rw [List.append_assoc, List.append_assoc]
  rw [findAfterPat_skip pubmedPat "https://".data _ (by decide) (by decide)]
  rw [show pubmedPat = 'p' :: "ubmed.ncbi.nlm.nih.gov/".data from rfl]
  rw [findAfterPat_self]
  dsimp only
  rw [takeWhile_all_append Char.isDigit pmid.data "/".data hdig]
  rw [show ("/".data.takeWhile Char.isDigit) = [] from rfl, List.append_nil]
  rw [if_neg (by simpa using hne)]

/-- A written PMC URL contains no pubmed-host pattern, hence no embedded
pmid, as long as the PMC identifier contains no dot. -/
theorem urlPmid_pmcUrl (s : String) (hs : ∀ c ∈ s.data, c ≠ '.') :
    urlPmid (pmcUrl s) = none := by
  unfold urlPmid pmcUrl
  rw [String.data_append, String.data_append]
  rw [List.append_assoc]
  rw [findAfterPat_skip pubmedPat ("https://www.ncbi.nlm.nih.gov/pmc/articles/").data _
    (by decide) (by decide)]
  rw [findAfterPat_no_dot (s.data ++ "/".data) (by
    intro c hc
    rcases List.mem_append.mp hc with hc' | hc'
    · exact hs c hc'
    · rw [List.mem_singleton.mp hc']
      decide)]

/-- The identifiers of a ref written for an admitted article are exactly
that article's pmid. -/
theorem mem_refIds_mkRef (a : ArticleInfo) (hne : a.pmid.data ≠ [])
    (hdig : ∀ c ∈ a.pmid.data, c.isDigit)
    (hpmc : ∀ s, a.pmcId = some s → ∀ c ∈ s.data, c ≠ '.') :
    ∀ x, x ∈ refIds (mkRef a) ↔ x = a.pmid := by
  intro x
  unfold refIds mkRef
  dsimp only
  have hne' : a.pmid ≠ "" := fun hcon => hne (by rw [hcon])
  have hfe : a.pmid.isEmpty = false := by
    rw [Bool.eq_false_iff]
    intro hcon
    exact hne' ((String.isEmpty_iff _).mp hcon)
  have htr : jsTruthyS (some a.pmid) = true := by
    simp [jsTruthyS, hfe]
  rw [htr]
  by_cases hb : (a.isPmc && jsTruthyS a.pmcId) = true
  · rw [if_pos hb]
    cases hc : a.pmcId with
    | none => rw [hc] at hb; simp [jsTruthyS] at hb
    | some s =>
      dsimp only [Option.getD]
      rw [urlPmid_pmcUrl s (hpmc s hc)]
      simp
  · rw [if_neg hb]
    rw [urlPmid_pubmedUrl a.pmid hne hdig]
    simp

/-- Membership in the collected existing-pmid set. -/
theorem mem_existingPmidsOf (refs : List GuidelineRef) (x : String) :
    x ∈ existingPmidsOf refs ↔ ∃ r ∈ refs, x ∈ refIds r := by
  unfold existingPmidsOf
  suffices h : ∀ (rs : List GuidelineRef) (acc : List String),
      x ∈ rs.foldl (fun acc r => acc ++ refIds r) acc
        ↔ x ∈ acc ∨ ∃ r ∈ rs, x ∈ refIds r by
    rw [h refs []]
    simp
  intro rs
  induction rs with
  | nil => intro acc; simp
  | cons r rest ih =>
    intro acc
    rw [List.foldl_cons, ih, List.mem_append]
    constructor
    · rintro ((h | h) | ⟨r', hr', hx⟩)
      · exact Or.inl h
      · exact Or.inr ⟨r, by simp, h⟩
      · exact Or.inr ⟨r', List.mem_cons_of_mem r hr', hx⟩
    · rintro (h | ⟨r', hr', hx⟩)
      · exact Or.inl (Or.inl h)
      · rcases List.mem_cons.mp hr' with rfl | hr''
        · exact Or.inl (Or.inr hx)
        · exact Or.inr ⟨r', hr'', hx⟩

/-- The selected articles carry pairwise distinct pmids. -/
theorem deepSelect_pmid_nodup (queries : List (List String)) (existing : List String)
    (details : String → Option ArticleInfo) (mta : Int)
    (hdet : ∀ p a, details p = some a → a.pmid = p) :
    ((deepSelect queries existing details mta).map (fun a => a.pmid)).Nodup := by
  have hsort : ((sortArticles (deepArticles queries existing details)).map
      (fun a => a.pmid)).Nodup := by
    refine (List.Perm.nodup_iff ?_).mpr
      (deepArticles_pmid_nodup queries existing details hdet)
    exact (List.perm_insertionSort deepLe _).map _
  exact hsort.sublist ((List.take_sublist _ _).map _)

/-- Claim C7 (confirmed): the per-entity identifier invariant is
preserved — starting from a ref list in which no two refs share an
external identifier (pmid field or pmid embedded in the URL), one
deep-scan enrichment pass appends only refs whose pmid is fresh and
mutually distinct, so no two refs of the result share an identifier.
Interface hypotheses: the detail endpoint returns a record only for the
requested id, pmids are nonempty digit strings, and PMC identifiers
contain no dot. -/
theorem no_duplicate_identifiers
    (refs : List GuidelineRef) (queries : List (List String))
    (details : String → Option ArticleInfo)
    (hdet : ∀ p a, details p = some a → a.pmid = p)
    (hdig : ∀ p a, details p = some a →
      a.pmid.data ≠ [] ∧ ∀ c ∈ a.pmid.data, c.isDigit)
    (hpmc : ∀ p a, details p = some a → ∀ s, a.pmcId = some s → ∀ c ∈ s.data, c ≠ '.')
    (hinv : NoDupIds refs) :
    NoDupIds (deepProcess refs queries details) := by
  unfold deepProcess NoDupIds
  rw [List.pairwise_append]
  have hids : ∀ a ∈ deepSelect queries (existingPmidsOf refs) details
      (5 - (refs.length : Int)), ∀ x, x ∈ refIds (mkRef a) ↔ x = a.pmid := by
    intro a ha
    obtain ⟨p, _, hpa⟩ := mem_deepArticles queries (existingPmidsOf refs) details a
      (mem_deepSelect queries (existingPmidsOf refs) details _ a ha)
    exact mem_refIds_mkRef a (hdig p a hpa).1 (hdig p a hpa).2 (hpmc p a hpa)
  refine ⟨hinv, ?_, ?_⟩
  · rw [List.pairwise_map]
    have hnd := deepSelect_pmid_nodup queries (existingPmidsOf refs) details
      (5 - (refs.length : Int)) hdet
    unfold List.Nodup at hnd
    rw [List.pairwise_map] at hnd
    exact hnd.imp_of_mem (fun ha hb hne x hxa hxb =>
      hne (((hids _ ha x).mp hxa) ▸ ((hids _ hb x).mp hxb) ▸ rfl))
  · intro r hr s hs x hxr
    obtain ⟨a, ha, rfl⟩ := List.mem_map.mp hs
    intro hxs
    have hx : x = a.pmid := (hids a ha x).mp hxs
    have hfresh : a.pmid ∉ existingPmidsOf refs :=
      deepSelect_pmid_fresh queries (existingPmidsOf refs) details _ hdet a ha
    exact hfresh (hx ▸ (mem_existingPmidsOf refs x).mpr ⟨r, hr, hxr⟩)

/-- Witness for C7 at a concrete input: an entity holding one authored
ref (pmid both in field and URL) enriched with one fresh fetched record
still satisfies the no-duplicate-identifier invariant. -/
theorem no_duplicate_identifiers_witness :
    NoDupIds (deepProcess
      [⟨"ACVIM", "Old ref", "https://pubmed.ncbi.nlm.nih.gov/11111/", "guideline", some "11111"⟩]
      [["22222"]]
      (fun p => if p = "22222"
        then some ⟨"22222", "t", "j", 2024, none, false, none, .review⟩ else none)) := by
  apply no_duplicate_identifiers
  · intro p a ha
    split at ha
    · cases ha; rename_i hp; rw [hp]
    · cases ha
  · intro p a ha
    split at ha
    · cases ha
      exact ⟨by decide, by decide⟩
    · cases ha
  · intro p a ha s hs
    split at ha
    · cases ha
      cases hs
    · cases ha
  · simp [NoDupIds]
